import Mathlib

/-!
Verification of the ndn-certification-agent log store and evaluation DAG.

Shallow embedding conventions:
* `u64` values are `Nat`; where overflow of a multiplication matters the
  result is reduced `% 2 ^ 64`, matching release-mode wrapping arithmetic.
* `i64` values and `chrono` timestamps are `Int` (timestamps in seconds;
  the two-minute rule window is the integer 120).
* `f64` is modelled by `F`, an exact rational extended with a NaN point;
  every comparison involving NaN is false, as for IEEE floats.  Rational
  arithmetic is exact where the source rounds; the source's
  `std_dev < 5.0` test is represented by the equivalent
  `variance < 25` test (for v ≥ 0, sqrt v < 5 iff v < 25).
* Rust `HashMap<K, VecDeque<V>>` fields are total functions `K → List V`
  with the empty list standing for an absent key: the only accesses the
  source performs are `entry(k).or_insert_with(Default::default)`, for
  which a missing key and an empty deque are indistinguishable.
* `HashMap<u64, i64>` (`duration_index`) is `Nat → Option Int`.
* Mutating methods (`insert_*`, `mut_merge`) become state-passing
  functions returning the updated store; `clone()` is the identity.
* Fallible evaluations return `Except String Bool`, the `String` being
  the `Error::EvaluationError` message of the source.
-/

/-- Model of `f64`: an exact rational or NaN.  Every ordered comparison
with a NaN operand is false. -/
inductive F where
  | nan : F
  | val : ℚ → F
deriving DecidableEq

def F.is_nan : F → Bool
  | .nan => true
  | .val _ => false

/-- `a < b` on `f64`: false whenever an operand is NaN. -/
def F.blt : F → F → Bool
  | .val a, .val b => decide (a < b)
  | _, _ => false

/-- `a <= b` on `f64`: false whenever an operand is NaN. -/
def F.ble : F → F → Bool
  | .val a, .val b => decide (a ≤ b)
  | _, _ => false

/-- `nfdc::PacketStatistics` (src/src/command/nfdc.rs): min/max are u64,
avg/std_dev are f64. -/
structure PacketStatistics where
  min : Nat
  max : Nat
  avg : F
  std_dev : F
deriving DecidableEq

/-- `task::Measurement<Data>` (src/src/task.rs). -/
structure Measurement (D : Type) where
  data : D
  index : Nat
  timestamp : Int
deriving DecidableEq

/-- `task::Evaluation` (src/src/task.rs). -/
structure Evaluation where
  value : Bool
  index : Nat
  timestamp : Int
deriving DecidableEq

/-- `task::Logs<Metrics, Tasks, Data>` (src/src/task.rs): four per-key
ordered collections plus the duration map. -/
@[ext]
structure Logs (K T D : Type) where
  measurements_index : K → List (Nat × D)
  measurements_timestamp : K → List (Int × D)
  evaluations_index : T → List (Nat × Bool)
  evaluations_timestamp : T → List (Int × Bool)
  duration_index : Nat → Option Int

namespace Logs

variable {K T D : Type}

/-- `Logs::default()`: every collection empty. -/
def empty : Logs K T D where
  measurements_index := fun _ => []
  measurements_timestamp := fun _ => []
  evaluations_index := fun _ => []
  evaluations_timestamp := fun _ => []
  duration_index := fun _ => none

/-- `Logs::insert_measurement` (src/src/task.rs lines 125-139):
push `(index, data)` and `(timestamp, data)` onto the metric's deques. -/
def insert_measurement [DecidableEq K] (self : Logs K T D)
    (measurement : Measurement D) (metric : K) : Logs K T D :=
  { self with
    measurements_index := fun k =>
      if k = metric then
        self.measurements_index k ++ [(measurement.index, measurement.data)]
      else self.measurements_index k
    measurements_timestamp := fun k =>
      if k = metric then
        self.measurements_timestamp k ++ [(measurement.timestamp, measurement.data)]
      else self.measurements_timestamp k }

/-- `Logs::with_measurement` (src/src/task.rs lines 108-123): clone the
receiver, then push `(index, data)` and `(timestamp, data)` onto the
clone's deques for the metric. -/
def with_measurement [DecidableEq K] (self : Logs K T D)
    (measurement : Measurement D) (metric : K) : Logs K T D :=
  { self with
    measurements_index := fun k =>
      if k = metric then
        self.measurements_index k ++ [(measurement.index, measurement.data)]
      else self.measurements_index k
    measurements_timestamp := fun k =>
      if k = metric then
        self.measurements_timestamp k ++ [(measurement.timestamp, measurement.data)]
      else self.measurements_timestamp k }

/-- `Logs::insert_evaluation` (src/src/task.rs lines 158-168). -/
def insert_evaluation [DecidableEq T] (self : Logs K T D)
    (evaluation : Evaluation) (task : T) : Logs K T D :=
  { self with
    evaluations_index := fun t =>
      if t = task then
        self.evaluations_index t ++ [(evaluation.index, evaluation.value)]
      else self.evaluations_index t
    evaluations_timestamp := fun t =>
      if t = task then
        self.evaluations_timestamp t ++ [(evaluation.timestamp, evaluation.value)]
      else self.evaluations_timestamp t }

/-- `Logs::with_evaluation` (src/src/task.rs lines 141-156). -/
def with_evaluation [DecidableEq T] (self : Logs K T D)
    (evaluation : Evaluation) (task : T) : Logs K T D :=
  { self with
    evaluations_index := fun t =>
      if t = task then
        self.evaluations_index t ++ [(evaluation.index, evaluation.value)]
      else self.evaluations_index t
    evaluations_timestamp := fun t =>
      if t = task then
        self.evaluations_timestamp t ++ [(evaluation.timestamp, evaluation.value)]
      else self.evaluations_timestamp t }

/-- `Logs::insert_duration` (src/src/task.rs lines 176-179):
`HashMap::insert` overwrites the index's previous value. -/
def insert_duration (self : Logs K T D) (duration : Int) (index : Nat) :
    Logs K T D :=
  { self with
    duration_index := fun i =>
      if i = index then some duration else self.duration_index i }

/-- `Logs::with_duration` (src/src/task.rs lines 170-174). -/
def with_duration (self : Logs K T D) (duration : Int) (index : Nat) :
    Logs K T D :=
  { self with
    duration_index := fun i =>
      if i = index then some duration else self.duration_index i }

end Logs

/-- The per-key body of `Logs::mut_merge` (src/src/task.rs lines 187-275),
identical for all four collections: compare the receiver's and the
delta's back elements; when the delta's back key is strictly newer,
append (in order) the delta entries collected from the back while their
key exceeds the receiver's back key; when the receiver is empty, adopt
the delta wholesale; otherwise leave the receiver unchanged. -/
def mergeSeq {α β : Type} [LinearOrder α] (self other : List (α × β)) :
    List (α × β) :=
  match self.getLast?, other.getLast? with
  | some sb, some ob =>
      if sb.1 < ob.1 then
        self ++ (other.reverse.takeWhile (fun p => decide (sb.1 < p.1))).reverse
      else self
  | none, some _ => other
  | _, _ => self

namespace Logs

variable {K T D : Type}

/-- `Logs::mut_merge` (src/src/task.rs lines 187-275): the per-key merge
on every collection, plus `HashMap::extend` on the duration map (the
delta's entries overwrite the receiver's). -/
def mut_merge (self other : Logs K T D) : Logs K T D where
  measurements_index := fun k =>
    mergeSeq (self.measurements_index k) (other.measurements_index k)
  measurements_timestamp := fun k =>
    mergeSeq (self.measurements_timestamp k) (other.measurements_timestamp k)
  evaluations_index := fun t =>
    mergeSeq (self.evaluations_index t) (other.evaluations_index t)
  evaluations_timestamp := fun t =>
    mergeSeq (self.evaluations_timestamp t) (other.evaluations_timestamp t)
  duration_index := fun i =>
    match other.duration_index i with
    | some v => some v
    | none => self.duration_index i

/-- `Logs::merge` (src/src/task.rs lines 181-185): clone the receiver and
`mut_merge` the delta into the clone. -/
def merge (self other : Logs K T D) : Logs K T D :=
  Logs.mut_merge self other

end Logs

/-- `Metrics` (src/bin/ca.rs lines 96-112). -/
inductive Metrics where
  | M1 | M2 | M3 | M4 | M5 | M6 | M7 | M8 | M9 | M10 | M11 | M12 | M13 | M14
deriving DecidableEq, Fintype

/-- `Tasks` (src/bin/ca.rs lines 114-144). -/
inductive Tasks where
  | C1 | C2 | C3 | C4 | C5 | C6 | C7 | C8 | C9 | C10 | C11 | C12 | C13 | C14 | C15
  | R1 | R2 | R3 | R4 | R5 | R6 | R7 | R8
  | P1 | P2 | P3
deriving DecidableEq, Fintype

/-- `Data` (src/bin/ca.rs lines 28-94).  The snapshot payloads
(`NfdStatus`, `CertificateList`, `CertificateInfo`) are opaque here:
no constraint ever destructures them, they exist only as wrong tags. -/
inductive Data where
  | HostTotalMemory : Nat → Data
  | NfdStatus : Unit → Data
  | CertificateList : Unit → Data
  | CertificateInfo : Unit → Data
  | M1 : String → Data
  | M2 : Nat → Data
  | M3 : Nat → Data
  | M4 : PacketStatistics → Data
  | M5 : List (String × String) → Data
  | M6 : List (Nat × Int) → Data
  | M7 : List (Nat × PacketStatistics) → Data
  | M8 : List (Nat × PacketStatistics) → Data
  | M9 : List (Nat × PacketStatistics) → Data
  | M10 : List (Nat × PacketStatistics) → Data
  | M11 : List (String × (Int × Int)) → Data
  | M12 : Option String → Data
  | M13 : Nat → Data
  | M14 : Nat → Nat → Data
deriving DecidableEq

/-- The program's concrete log-store instantiation. -/
abbrev LogsC := Logs Metrics Tasks Data

/-- `const CS_ENTRY_SIZE: u64 = 8192` (src/bin/ca.rs line 26). -/
def CS_ENTRY_SIZE : Nat := 8192

/-- u64 modulus: release-mode multiplication wraps at 2^64. -/
def U64 : Nat := 2 ^ 64

def wrongDepTask : String := "Wrong dependency task provided"

def wrongDepTasks : String := "Wrong dependency tasks provided"

/-- Dependency results handed to a constraint: the `Logging` pair of the
measurement and the branch-local log accumulator. -/
abbrev MDep := Measurement Data × LogsC

/-- `c1` (src/bin/ca.rs lines 467-483): true iff the CS policy name is
`lru`; wrong tag is an evaluation error.  `ts` stands for the
`Utc::now()` used by `Evaluation::new`. -/
def c1 (m1 : MDep) (index : Nat) (ts : Int) :
    Except String (Evaluation × LogsC) := do
  let (meas, logs) := m1
  let value ← match meas.data with
    | .M1 cs_policy_name =>
        if cs_policy_name = ("lru") then Except.ok true else Except.ok false
    | _ => Except.error wrongDepTask
  let evaluation : Evaluation := ⟨value, index, ts⟩
  Except.ok (evaluation, logs.insert_evaluation evaluation Tasks.C1)

/-- `c2` (src/bin/ca.rs lines 485-510): true iff
`total_memory * 80 / 100 >= cs_entries * CS_ENTRY_SIZE` (u64 wrapping
products, truncating division). -/
def c2 (m2 m13 : MDep) (index : Nat) (ts : Int) :
    Except String (Evaluation × LogsC) := do
  let (meas2, logs2) := m2
  let (meas13, logs13) := m13
  let value ← match meas2.data, meas13.data with
    | .M2 cs_entries, .M13 total_memory =>
        if cs_entries * CS_ENTRY_SIZE % U64 ≤ total_memory * 80 % U64 / 100 then
          Except.ok true
        else Except.ok false
    | _, _ => Except.error wrongDepTasks
  let evaluation : Evaluation := ⟨value, index, ts⟩
  Except.ok (evaluation,
    (logs2.mut_merge logs13).insert_evaluation evaluation Tasks.C2)

/-- `c3` (src/bin/ca.rs lines 512-527): true iff the CS capacity is at
most 100000 entries. -/
def c3 (m2 : MDep) (index : Nat) (ts : Int) :
    Except String (Evaluation × LogsC) := do
  let (meas, logs) := m2
  let value ← match meas.data with
    | .M2 cs_entries => Except.ok (decide (cs_entries ≤ 100000))
    | _ => Except.error wrongDepTask
  let evaluation : Evaluation := ⟨value, index, ts⟩
  Except.ok (evaluation, logs.insert_evaluation evaluation Tasks.C3)

/-- `c4` (src/bin/ca.rs lines 529-548): true iff
`cs_usage >= cs_entries * 80 / 100` (u64 wrapping product, truncating
division). -/
def c4 (m2 m3 : MDep) (index : Nat) (ts : Int) :
    Except String (Evaluation × LogsC) := do
  let (meas2, logs2) := m2
  let (meas3, logs3) := m3
  let value ← match meas2.data, meas3.data with
    | .M2 cs_entries, .M3 cs_usage =>
        if cs_entries * 80 % U64 / 100 ≤ cs_usage then Except.ok true
        else Except.ok false
    | _, _ => Except.error wrongDepTasks
  let evaluation : Evaluation := ⟨value, index, ts⟩
  Except.ok (evaluation,
    (logs2.mut_merge logs3).insert_evaluation evaluation Tasks.C4)

/-- The most recent five M3 values as collected by `c5`
(src/bin/ca.rs lines 559-567): walk the M3 index sequence from the back,
take five entries, keep the M3-tagged payloads. -/
def c5samples (logs : LogsC) : List Nat :=
  ((logs.measurements_index Metrics.M3).reverse.take 5).filterMap
    (fun e => match e.2 with | .M3 v => some v | _ => none)

/-- `c5` (src/bin/ca.rs lines 550-587).  For `index < 4` the result is
false whatever the dependency carries; otherwise an M3 tag is required
and the sample variance (denominator `n - 1`, u64 truncating
subtraction; u64 wrapping sum for the mean's numerator) of the most
recent five M3 values must be below 25 — the source compares
`sqrt(variance) < 5.0`, equivalent for nonnegative variance.  Division
by zero yields 0 in ℚ where f64 yields NaN; the n ≥ 2 cases the claims
speak about are unaffected. -/
def c5 (m3 : MDep) (index : Nat) (ts : Int) :
    Except String (Evaluation × LogsC) := do
  let (meas, logs) := m3
  let value ← (
    if index < 4 then Except.ok false
    else match meas.data with
      | .M3 _ =>
          let cs_usages := c5samples logs
          let mean : ℚ := ((cs_usages.foldl (· + ·) 0 % U64 : Nat) : ℚ) /
            (cs_usages.length : ℚ)
          let n_entries := cs_usages.length
          let variance : ℚ :=
            (cs_usages.foldl (fun acc new => acc + ((new : ℚ) - mean) ^ 2) 0) /
              ((n_entries - 1 : Nat) : ℚ)
          Except.ok (decide (variance < 25))
      | _ => Except.error wrongDepTasks)
  let evaluation : Evaluation := ⟨value, index, ts⟩
  Except.ok (evaluation, logs.insert_evaluation evaluation Tasks.C5)

/-- `c6` (src/bin/ca.rs lines 589-604): true iff M4's std_dev ≤ 5.0. -/
def c6 (m4 : MDep) (index : Nat) (ts : Int) :
    Except String (Evaluation × LogsC) := do
  let (meas, logs) := m4
  let value ← match meas.data with
    | .M4 v => Except.ok (F.ble v.std_dev (F.val 5))
    | _ => Except.error wrongDepTask
  let evaluation : Evaluation := ⟨value, index, ts⟩
  Except.ok (evaluation, logs.insert_evaluation evaluation Tasks.C6)

/-- `c7` (src/bin/ca.rs lines 606-621): true iff M4's avg ≥ 20.0. -/
def c7 (m4 : MDep) (index : Nat) (ts : Int) :
    Except String (Evaluation × LogsC) := do
  let (meas, logs) := m4
  let value ← match meas.data with
    | .M4 v => Except.ok (F.ble (F.val 20) v.avg)
    | _ => Except.error wrongDepTask
  let evaluation : Evaluation := ⟨value, index, ts⟩
  Except.ok (evaluation, logs.insert_evaluation evaluation Tasks.C7)

/-- `c8` (src/bin/ca.rs lines 623-638): true iff every face's pending
interest estimate is below 100. -/
def c8 (m6 : MDep) (index : Nat) (ts : Int) :
    Except String (Evaluation × LogsC) := do
  let (meas, logs) := m6
  let value ← match meas.data with
    | .M6 v => Except.ok ((v.map Prod.snd).all (fun x => decide (x < 100)))
    | _ => Except.error wrongDepTask
  let evaluation : Evaluation := ⟨value, index, ts⟩
  Except.ok (evaluation, logs.insert_evaluation evaluation Tasks.C8)

/-- `c9` (src/bin/ca.rs lines 640-655): true iff every face's minimum
interest packet size is at least 10. -/
def c9 (m7 : MDep) (index : Nat) (ts : Int) :
    Except String (Evaluation × LogsC) := do
  let (meas, logs) := m7
  let value ← match meas.data with
    | .M7 v => Except.ok ((v.map Prod.snd).all (fun s => decide (10 ≤ s.min)))
    | _ => Except.error wrongDepTask
  let evaluation : Evaluation := ⟨value, index, ts⟩
  Except.ok (evaluation, logs.insert_evaluation evaluation Tasks.C9)

/-- `c10` (src/bin/ca.rs lines 657-675): over M9, ignore NaN averages
and require every remaining face's average component count to be
strictly between 3.0 and 12.0. -/
def c10 (m9 : MDep) (index : Nat) (ts : Int) :
    Except String (Evaluation × LogsC) := do
  let (meas, logs) := m9
  let value ← match meas.data with
    | .M9 v => Except.ok (((v.map Prod.snd).filter
        (fun s => !s.avg.is_nan)).all
        (fun s => F.blt (F.val 3) s.avg && F.blt s.avg (F.val 12)))
    | _ => Except.error wrongDepTask
  let evaluation : Evaluation := ⟨value, index, ts⟩
  Except.ok (evaluation, logs.insert_evaluation evaluation Tasks.C10)

/-- `c11` (src/bin/ca.rs lines 677-692): true iff every face's minimum
data packet size is at least 10. -/
def c11 (m8 : MDep) (index : Nat) (ts : Int) :
    Except String (Evaluation × LogsC) := do
  let (meas, logs) := m8
  let value ← match meas.data with
    | .M8 v => Except.ok ((v.map Prod.snd).all (fun s => decide (10 ≤ s.min)))
    | _ => Except.error wrongDepTask
  let evaluation : Evaluation := ⟨value, index, ts⟩
  Except.ok (evaluation, logs.insert_evaluation evaluation Tasks.C11)

/-- `c12` (src/bin/ca.rs lines 694-712): as `c10` but over M10. -/
def c12 (m10 : MDep) (index : Nat) (ts : Int) :
    Except String (Evaluation × LogsC) := do
  let (meas, logs) := m10
  let value ← match meas.data with
    | .M10 v => Except.ok (((v.map Prod.snd).filter
        (fun s => !s.avg.is_nan)).all
        (fun s => F.blt (F.val 3) s.avg && F.blt s.avg (F.val 12)))
    | _ => Except.error wrongDepTask
  let evaluation : Evaluation := ⟨value, index, ts⟩
  Except.ok (evaluation, logs.insert_evaluation evaluation Tasks.C12)

/-- `c13` (src/bin/ca.rs lines 714-730): true iff `now` lies strictly
inside every identity's validity interval. -/
def c13 (m11 : MDep) (index : Nat) (now ts : Int) :
    Except String (Evaluation × LogsC) := do
  let (meas, logs) := m11
  let value ← match meas.data with
    | .M11 v => Except.ok ((v.map Prod.snd).all
        (fun s => decide (s.1 < now) && decide (now < s.2)))
    | _ => Except.error wrongDepTask
  let evaluation : Evaluation := ⟨value, index, ts⟩
  Except.ok (evaluation, logs.insert_evaluation evaluation Tasks.C13)

/-- `c14` (src/bin/ca.rs lines 732-747): true iff a default certificate
is present. -/
def c14 (m12 : MDep) (index : Nat) (ts : Int) :
    Except String (Evaluation × LogsC) := do
  let (meas, logs) := m12
  let value ← match meas.data with
    | .M12 v => Except.ok v.isSome
    | _ => Except.error wrongDepTask
  let evaluation : Evaluation := ⟨value, index, ts⟩
  Except.ok (evaluation, logs.insert_evaluation evaluation Tasks.C14)

/-- `c15` (src/bin/ca.rs lines 749-764): true iff the invalid-signature
packet count is zero. -/
def c15 (m14 : MDep) (index : Nat) (ts : Int) :
    Except String (Evaluation × LogsC) := do
  let (meas, logs) := m14
  let value ← match meas.data with
    | .M14 _valid invalid => Except.ok (decide (invalid = 0))
    | _ => Except.error wrongDepTask
  let evaluation : Evaluation := ⟨value, index, ts⟩
  Except.ok (evaluation, logs.insert_evaluation evaluation Tasks.C15)

/-- `chrono::Duration::minutes(-2)` in seconds, as used by every
windowed rule (e.g. src/bin/ca.rs line 807). -/
def windowDuration : Int := -120

/-- The windowed check every R2-R8/P1-P3 performs per dependency task
(e.g. src/bin/ca.rs lines 834-841): scan the task's time-ordered
evaluation history from the most recent entry backwards, stop at the
first entry older than `now + windowDuration`, and require every scanned
value to be true.  `Iterator::all` on an empty scan is true. -/
def windowAll (now : Int) (entries : List (Int × Bool)) : Bool :=
  (entries.reverse.takeWhile
    (fun p => decide (now + windowDuration ≤ p.1))).all (fun p => p.2)

/-- Dependency results handed to a rule or property: the `Logging` pair
of the evaluation and the branch-local log accumulator. -/
abbrev EDep := Evaluation × LogsC

/-- `r1` (src/bin/ca.rs lines 766-783): instantaneous AND of the
current-cycle C1, C2, C3 evaluations. -/
def r1 (dc1 dc2 dc3 : EDep) (index : Nat) (ts : Int) : EDep :=
  let value := dc1.1.value && dc2.1.value && dc3.1.value
  let merged := (dc1.2.mut_merge dc2.2).mut_merge dc3.2
  let evaluation : Evaluation := ⟨value, index, ts⟩
  (evaluation, merged.insert_evaluation evaluation Tasks.R1)

/-- `r2` (src/bin/ca.rs lines 785-824): merge the four dependency logs,
then require the windowed check for each of C4, C5, C6, C7. -/
def r2 (dc4 dc5 dc6 dc7 : EDep) (index : Nat) (now ts : Int) : EDep :=
  let merged := ((dc4.2.mut_merge dc5.2).mut_merge dc6.2).mut_merge dc7.2
  let value := [Tasks.C4, Tasks.C5, Tasks.C6, Tasks.C7].all
    (fun t => windowAll now (merged.evaluations_timestamp t))
  let evaluation : Evaluation := ⟨value, index, ts⟩
  (evaluation, merged.insert_evaluation evaluation Tasks.R2)

/-- `r3` (src/bin/ca.rs lines 826-846): windowed check over C8. -/
def r3 (dc8 : EDep) (index : Nat) (now ts : Int) : EDep :=
  let logs := dc8.2
  let value := windowAll now (logs.evaluations_timestamp Tasks.C8)
  let evaluation : Evaluation := ⟨value, index, ts⟩
  (evaluation, logs.insert_evaluation evaluation Tasks.R3)

/-- `r4` (src/bin/ca.rs lines 848-872): windowed check over C9, C10. -/
def r4 (dc9 dc10 : EDep) (index : Nat) (now ts : Int) : EDep :=
  let merged := dc9.2.mut_merge dc10.2
  let value := [Tasks.C9, Tasks.C10].all
    (fun t => windowAll now (merged.evaluations_timestamp t))
  let evaluation : Evaluation := ⟨value, index, ts⟩
  (evaluation, merged.insert_evaluation evaluation Tasks.R4)

/-- `r5` (src/bin/ca.rs lines 874-899): windowed check over C11, C12. -/
def r5 (dc11 dc12 : EDep) (index : Nat) (now ts : Int) : EDep :=
  let merged := dc11.2.mut_merge dc12.2
  let value := [Tasks.C11, Tasks.C12].all
    (fun t => windowAll now (merged.evaluations_timestamp t))
  let evaluation : Evaluation := ⟨value, index, ts⟩
  (evaluation, merged.insert_evaluation evaluation Tasks.R5)

/-- `r6` (src/bin/ca.rs lines 901-921): windowed check over C13. -/
def r6 (dc13 : EDep) (index : Nat) (now ts : Int) : EDep :=
  let logs := dc13.2
  let value := windowAll now (logs.evaluations_timestamp Tasks.C13)
  let evaluation : Evaluation := ⟨value, index, ts⟩
  (evaluation, logs.insert_evaluation evaluation Tasks.R6)

/-- `r7` (src/bin/ca.rs lines 923-944): windowed check over C14. -/
def r7 (dc14 : EDep) (index : Nat) (now ts : Int) : EDep :=
  let logs := dc14.2
  let value := windowAll now (logs.evaluations_timestamp Tasks.C14)
  let evaluation : Evaluation := ⟨value, index, ts⟩
  (evaluation, logs.insert_evaluation evaluation Tasks.R7)

/-- `r8` (src/bin/ca.rs lines 946-967): windowed check over C15. -/
def r8 (dc15 : EDep) (index : Nat) (now ts : Int) : EDep :=
  let logs := dc15.2
  let value := windowAll now (logs.evaluations_timestamp Tasks.C15)
  let evaluation : Evaluation := ⟨value, index, ts⟩
  (evaluation, logs.insert_evaluation evaluation Tasks.R8)

/-- `p1` (src/bin/ca.rs lines 969-1014): merge the five rule logs, then
windowed check over R1-R5. -/
def p1 (dr1 dr2 dr3 dr4 dr5 : EDep) (index : Nat) (now ts : Int) : EDep :=
  let merged := (((dr1.2.mut_merge dr2.2).mut_merge dr3.2).mut_merge
    dr4.2).mut_merge dr5.2
  let value := [Tasks.R1, Tasks.R2, Tasks.R3, Tasks.R4, Tasks.R5].all
    (fun t => windowAll now (merged.evaluations_timestamp t))
  let evaluation : Evaluation := ⟨value, index, ts⟩
  (evaluation, merged.insert_evaluation evaluation Tasks.P1)

/-- `p2` (src/bin/ca.rs lines 1016-1039): windowed check over R6, R7. -/
def p2 (dr6 dr7 : EDep) (index : Nat) (now ts : Int) : EDep :=
  let merged := dr6.2.mut_merge dr7.2
  let value := [Tasks.R6, Tasks.R7].all
    (fun t => windowAll now (merged.evaluations_timestamp t))
  let evaluation : Evaluation := ⟨value, index, ts⟩
  (evaluation, merged.insert_evaluation evaluation Tasks.P2)

/-- `p3` (src/bin/ca.rs lines 1041-1066): windowed check over R6, R7,
R8. -/
def p3 (dr6 dr7 dr8 : EDep) (index : Nat) (now ts : Int) : EDep :=
  let merged := (dr6.2.mut_merge dr7.2).mut_merge dr8.2
  let value := [Tasks.R6, Tasks.R7, Tasks.R8].all
    (fun t => windowAll now (merged.evaluations_timestamp t))
  let evaluation : Evaluation := ⟨value, index, ts⟩
  (evaluation, merged.insert_evaluation evaluation Tasks.P3)

/-- A per-key sequence is well-formed when its keys (cycle indices or
timestamps) are strictly increasing, the store invariant stated by the
spec. -/
def seqSorted {α β : Type} [LinearOrder α] (l : List (α × β)) : Prop :=
  l.Pairwise (fun a b => a.1 < b.1)

instance {α β : Type} [LinearOrder α] (l : List (α × β)) :
    Decidable (seqSorted l) :=
  List.instDecidablePairwise l

/-- Every per-key sequence of the store is strictly increasing. -/
def SortedLogs {K T D : Type} (L : Logs K T D) : Prop :=
  (∀ k, seqSorted (L.measurements_index k)) ∧
  (∀ k, seqSorted (L.measurements_timestamp k)) ∧
  (∀ t, seqSorted (L.evaluations_index t)) ∧
  (∀ t, seqSorted (L.evaluations_timestamp t))

instance {K T D : Type} [Fintype K] [Fintype T] (L : Logs K T D) :
    Decidable (SortedLogs L) := by
  unfold SortedLogs; infer_instance

theorem mergeSeq_nil_left {α β : Type} [LinearOrder α]
    (other : List (α × β)) : mergeSeq [] other = other := by
  cases h : other.getLast? with
  | none => rw [List.getLast?_eq_none_iff] at h; simp [mergeSeq, h]
  | some ob => simp [mergeSeq, h]

theorem mergeSeq_nil_right {α β : Type} [LinearOrder α]
    (self : List (α × β)) : mergeSeq self [] = self := by
  cases h : self.getLast? <;> simp [mergeSeq, h]

theorem mergeSeq_self {α β : Type} [LinearOrder α]
    (l : List (α × β)) : mergeSeq l l = l := by
  cases h : l.getLast? <;> simp [mergeSeq, h]

/-- In a strictly increasing sequence every key is at most the back
key. -/
theorem seqSorted_le_getLast {α β : Type} [LinearOrder α]
    (l : List (α × β)) (ob : α × β) (hl : seqSorted l)
    (hob : l.getLast? = some ob) : ∀ a ∈ l, a.1 ≤ ob.1 := by
  induction l using List.reverseRecOn with
  | nil => simp at hob
  | append_singleton ys y _ =>
      rw [List.getLast?_concat] at hob
      cases hob
      intro a ha
      rcases List.mem_append.mp ha with hy | hy
      · have := (List.pairwise_append.mp hl).2.2 a hy ob (by simp)
        exact le_of_lt this
      · simp at hy; subst hy; exact le_refl _

/-- On a strictly increasing sequence, collecting from the back while
the key exceeds `s` collects exactly the entries whose key exceeds
`s`. -/
theorem takeWhile_reverse_eq_filter {α β : Type} [LinearOrder α]
    (s : α) (l : List (α × β)) (hl : seqSorted l) :
    l.reverse.takeWhile (fun p => decide (s < p.1)) =
      (l.filter (fun p => decide (s < p.1))).reverse := by
  induction l using List.reverseRecOn with
  | nil => rfl
  | append_singleton ys y ih =>
      have hys : seqSorted ys := (List.pairwise_append.mp hl).1
      have hcross := (List.pairwise_append.mp hl).2.2
      rw [List.reverse_append, List.reverse_singleton, List.singleton_append,
        List.takeWhile_cons, List.filter_append]
      by_cases hy : s < y.1
      · simp [hy, ih hys]
      · have hnil : ys.filter (fun p => decide (s < p.1)) = [] := by
          rw [List.filter_eq_nil_iff]
          intro a ha
          have hlt : a.1 < y.1 := hcross a ha y (by simp)
          simp only [decide_eq_true_eq]
          intro hs
          exact hy (lt_trans hs hlt)
        simp [hnil, hy]

/-- Normal form of the per-key merge against a sorted delta: keep the
receiver and append the delta entries whose key strictly exceeds the
receiver's back key. -/
theorem mergeSeq_eq_append {α β : Type} [LinearOrder α]
    (self other : List (α × β)) (sb : α × β)
    (hself : self.getLast? = some sb) (ho : seqSorted other) :
    mergeSeq self other =
      self ++ other.filter (fun p => decide (sb.1 < p.1)) := by
  unfold mergeSeq
  rw [hself]
  cases hob : other.getLast? with
  | none =>
      rw [List.getLast?_eq_none_iff] at hob
      simp [hob]
  | some ob =>
      by_cases hlt : sb.1 < ob.1
      · simp only [hlt, if_true]
        rw [takeWhile_reverse_eq_filter sb.1 other ho, List.reverse_reverse]
      · simp only [hlt, if_false]
        have hnil : other.filter (fun p => decide (sb.1 < p.1)) = [] := by
          rw [List.filter_eq_nil_iff]
          intro a ha
          have := seqSorted_le_getLast other ob ho hob a ha
          simp only [decide_eq_true_eq]
          intro hs
          exact hlt (lt_of_lt_of_le hs this)
        simp [hnil]

/-- Filtering keeps the back element when it satisfies the predicate. -/
theorem filter_getLast?_of_pred {α : Type} (p : α → Bool) (l : List α)
    (ob : α) (h : l.getLast? = some ob) (hp : p ob = true) :
    (l.filter p).getLast? = some ob := by
  induction l using List.reverseRecOn with
  | nil => simp at h
  | append_singleton ys y _ =>
      rw [List.getLast?_concat] at h
      cases h
      rw [List.filter_append]
      simp [hp, List.getLast?_concat]

/-- The per-key merge is idempotent against a sorted delta. -/
theorem mergeSeq_idem {α β : Type} [LinearOrder α]
    (self other : List (α × β)) (ho : seqSorted other) :
    mergeSeq (mergeSeq self other) other = mergeSeq self other := by
  cases hs : self.getLast? with
  | none =>
      rw [List.getLast?_eq_none_iff] at hs
      subst hs
      rw [mergeSeq_nil_left]
      exact mergeSeq_self other
  | some sb =>
      rw [mergeSeq_eq_append self other sb hs ho]
      cases hob : other.getLast? with
      | none =>
          rw [List.getLast?_eq_none_iff] at hob
          subst hob
          simp [mergeSeq_nil_right]
      | some ob =>
          by_cases hlt : sb.1 < ob.1
          · have hfl : (other.filter (fun p => decide (sb.1 < p.1))).getLast?
                = some ob :=
              filter_getLast?_of_pred _ other ob hob (by simp [hlt])
            have hr : (self ++
                other.filter (fun p => decide (sb.1 < p.1))).getLast?
                = some ob := by
              rw [List.getLast?_append, hfl]; rfl
            rw [mergeSeq_eq_append _ other ob hr ho]
            have hnil : other.filter (fun p => decide (ob.1 < p.1)) = [] := by
              rw [List.filter_eq_nil_iff]
              intro a ha
              have := seqSorted_le_getLast other ob ho hob a ha
              simp only [decide_eq_true_eq]
              intro habs
              exact absurd (lt_of_lt_of_le habs this) (lt_irrefl _)
            rw [hnil, List.append_nil]
          · have hnil : other.filter (fun p => decide (sb.1 < p.1)) = [] := by
              rw [List.filter_eq_nil_iff]
              intro a ha
              have := seqSorted_le_getLast other ob ho hob a ha
              simp only [decide_eq_true_eq]
              intro habs
              exact hlt (lt_of_lt_of_le habs this)
            rw [hnil, List.append_nil,
              mergeSeq_eq_append self other sb hs ho, hnil, List.append_nil]

/-- A sample store used to instantiate hypotheses at concrete inputs. -/
def sampleS : LogsC where
  measurements_index := fun k => match k with
    | .M3 => [(0, Data.M3 100), (1, Data.M3 101)]
    | _ => []
  measurements_timestamp := fun k => match k with
    | .M3 => [(10, Data.M3 100), (20, Data.M3 101)]
    | _ => []
  evaluations_index := fun t => match t with
    | .C8 => [(0, true), (1, false)]
    | _ => []
  evaluations_timestamp := fun t => match t with
    | .C8 => [(10, true), (20, false)]
    | _ => []
  duration_index := fun i => if i = 0 then some 5 else none

/-- A sample delta overlapping `sampleS` on M3 and C8 and extending
them. -/
def sampleD : LogsC where
  measurements_index := fun k => match k with
    | .M3 => [(1, Data.M3 101), (2, Data.M3 99)]
    | _ => []
  measurements_timestamp := fun k => match k with
    | .M3 => [(20, Data.M3 101), (30, Data.M3 99)]
    | _ => []
  evaluations_index := fun t => match t with
    | .C8 => [(1, false), (2, true)]
    | _ => []
  evaluations_timestamp := fun t => match t with
    | .C8 => [(20, false), (30, true)]
    | _ => []
  duration_index := fun i => if i = 1 then some 7 else none

/-- C1: merging the same sorted delta twice equals merging it once, on
all four per-key collections and the duration map. -/
theorem C1_merge_idempotent {K T D : Type} (S Δ : Logs K T D)
    (hS : SortedLogs S) (hΔ : SortedLogs Δ) :
    (S.merge Δ).merge Δ = S.merge Δ := by
  obtain ⟨h1, h2, h3, h4⟩ := hΔ
  refine Logs.ext ?_ ?_ ?_ ?_ ?_
  · funext k
    exact mergeSeq_idem _ _ (h1 k)
  · funext k
    exact mergeSeq_idem _ _ (h2 k)
  · funext t
    exact mergeSeq_idem _ _ (h3 t)
  · funext t
    exact mergeSeq_idem _ _ (h4 t)
  · funext i
    simp only [Logs.merge, Logs.mut_merge]
    cases hi : Δ.duration_index i <;> simp [hi]

/-- C1 witness: the idempotence theorem applied at concrete sorted
stores. -/
theorem C1_merge_idempotent_witness :
    SortedLogs sampleS ∧ SortedLogs sampleD ∧
      (sampleS.merge sampleD).merge sampleD = sampleS.merge sampleD :=
  ⟨by decide, by decide,
    C1_merge_idempotent sampleS sampleD (by decide) (by decide)⟩

/-- A store holding a single M1 entry at index 5. -/
def c3S : LogsC :=
  { Logs.empty with
    measurements_index := fun k => match k with
      | .M1 => [(5, Data.M1 ("b"))]
      | _ => [] }

/-- A delta holding a single M1 entry at index 3, older than `c3S`'s
tail. -/
def c3D : LogsC :=
  { Logs.empty with
    measurements_index := fun k => match k with
      | .M1 => [(3, Data.M1 ("c"))]
      | _ => [] }

/-- C3 counterexample: both stores are per-key sorted, the delta's
`(3, c)` entry exists, yet it does not appear in the merge — the merge
drops delta entries at or below the receiver's tail index. -/
theorem C3_counterexample :
    SortedLogs c3S ∧ SortedLogs c3D ∧
      (3, Data.M1 ("c")) ∈ c3D.measurements_index Metrics.M1 ∧
      (3, Data.M1 ("c")) ∉ (c3S.merge c3D).measurements_index Metrics.M1 := by
  decide

/-- C3 amended: against a sorted delta, for each key the merge keeps the
receiver's sequence unchanged as a prefix (no loss or reorder of
receiver entries) and appends exactly the delta entries whose key
strictly exceeds the receiver's back key, in their original order; a key
empty in the receiver adopts the delta's sequence wholesale. -/
theorem C3_merge_append_suffix {K T D : Type} (S Δ : Logs K T D)
    (hS : SortedLogs S) (hΔ : SortedLogs Δ) :
    (∀ k, (S.merge Δ).measurements_index k =
      match (S.measurements_index k).getLast? with
      | none => Δ.measurements_index k
      | some sb => S.measurements_index k ++
          (Δ.measurements_index k).filter (fun p => decide (sb.1 < p.1))) ∧
    (∀ k, (S.merge Δ).measurements_timestamp k =
      match (S.measurements_timestamp k).getLast? with
      | none => Δ.measurements_timestamp k
      | some sb => S.measurements_timestamp k ++
          (Δ.measurements_timestamp k).filter (fun p => decide (sb.1 < p.1))) ∧
    (∀ t, (S.merge Δ).evaluations_index t =
      match (S.evaluations_index t).getLast? with
      | none => Δ.evaluations_index t
      | some sb => S.evaluations_index t ++
          (Δ.evaluations_index t).filter (fun p => decide (sb.1 < p.1))) ∧
    (∀ t, (S.merge Δ).evaluations_timestamp t =
      match (S.evaluations_timestamp t).getLast? with
      | none => Δ.evaluations_timestamp t
      | some sb => S.evaluations_timestamp t ++
          (Δ.evaluations_timestamp t).filter (fun p => decide (sb.1 < p.1))) := by
  obtain ⟨g1, g2, g3, g4⟩ := hΔ
  refine ⟨fun k => ?_, fun k => ?_, fun t => ?_, fun t => ?_⟩
  · cases h : (S.measurements_index k).getLast? with
    | none =>
        rw [List.getLast?_eq_none_iff] at h
        show mergeSeq _ _ = _
        rw [h, mergeSeq_nil_left]
    | some sb => exact mergeSeq_eq_append _ _ sb h (g1 k)
  · cases h : (S.measurements_timestamp k).getLast? with
    | none =>
        rw [List.getLast?_eq_none_iff] at h
        show mergeSeq _ _ = _
        rw [h, mergeSeq_nil_left]
    | some sb => exact mergeSeq_eq_append _ _ sb h (g2 k)
  · cases h : (S.evaluations_index t).getLast? with
    | none =>
        rw [List.getLast?_eq_none_iff] at h
        show mergeSeq _ _ = _
        rw [h, mergeSeq_nil_left]
    | some sb => exact mergeSeq_eq_append _ _ sb h (g3 t)
  · cases h : (S.evaluations_timestamp t).getLast? with
    | none =>
        rw [List.getLast?_eq_none_iff] at h
        show mergeSeq _ _ = _
        rw [h, mergeSeq_nil_left]
    | some sb => exact mergeSeq_eq_append _ _ sb h (g4 t)

/-- C3 witness: the amended merge description evaluated at concrete
sorted stores. -/
theorem C3_merge_append_suffix_witness :
    SortedLogs sampleS ∧ SortedLogs sampleD ∧
      (sampleS.merge sampleD).measurements_index Metrics.M3 =
        [(0, Data.M3 100), (1, Data.M3 101), (2, Data.M3 99)] := by
  refine ⟨by decide, by decide, ?_⟩
  have h := (C3_merge_append_suffix sampleS sampleD (by decide)
    (by decide)).1 Metrics.M3
  rw [h]
  decide

/-- The per-key merge of two strictly increasing sequences is strictly
increasing. -/
theorem mergeSeq_sorted {α β : Type} [LinearOrder α]
    (self other : List (α × β)) (hs : seqSorted self)
    (ho : seqSorted other) : seqSorted (mergeSeq self other) := by
  cases h : self.getLast? with
  | none =>
      rw [List.getLast?_eq_none_iff] at h
      subst h
      rw [mergeSeq_nil_left]
      exact ho
  | some sb =>
      rw [mergeSeq_eq_append self other sb h ho]
      rw [seqSorted, List.pairwise_append]
      refine ⟨hs, List.Pairwise.filter _ ho, ?_⟩
      intro a ha b hb
      have hab : a.1 ≤ sb.1 := seqSorted_le_getLast self sb hs h a ha
      have hbp : sb.1 < b.1 := by
        have := (List.mem_filter.mp hb).2
        simpa using this
      exact lt_of_le_of_lt hab hbp

/-- Merging two per-key sorted stores yields a per-key sorted store. -/
theorem sortedLogs_merge {K T D : Type} (S Δ : Logs K T D)
    (hS : SortedLogs S) (hΔ : SortedLogs Δ) : SortedLogs (S.merge Δ) := by
  obtain ⟨s1, s2, s3, s4⟩ := hS
  obtain ⟨g1, g2, g3, g4⟩ := hΔ
  exact ⟨fun k => mergeSeq_sorted _ _ (s1 k) (g1 k),
    fun k => mergeSeq_sorted _ _ (s2 k) (g2 k),
    fun t => mergeSeq_sorted _ _ (s3 t) (g3 t),
    fun t => mergeSeq_sorted _ _ (s4 t) (g4 t)⟩

/-- C4: after any sequence of merges of per-key sorted deltas into a
per-key sorted store, every per-key sequence of the result still has
strictly increasing keys, and in particular no index appears twice for
the same key. -/
theorem C4_merge_preserves_monotonic {K T D : Type} (S : Logs K T D)
    (ds : List (Logs K T D)) (hS : SortedLogs S)
    (hds : ∀ Δ ∈ ds, SortedLogs Δ) :
    SortedLogs (ds.foldl Logs.merge S) ∧
    (∀ k, ((ds.foldl Logs.merge S).measurements_index k).Pairwise
      (fun a b => a.1 ≠ b.1)) ∧
    (∀ t, ((ds.foldl Logs.merge S).evaluations_index t).Pairwise
      (fun a b => a.1 ≠ b.1)) := by
  have hsorted : SortedLogs (ds.foldl Logs.merge S) := by
    induction ds generalizing S with
    | nil => exact hS
    | cons d tl ih =>
        exact ih (S.merge d) (sortedLogs_merge S d hS (hds d (List.mem_cons_self d tl)))
          (fun Δ hΔ => hds Δ (List.mem_cons_of_mem _ hΔ))
  refine ⟨hsorted, fun k => ?_, fun t => ?_⟩
  · exact (hsorted.1 k).imp ne_of_lt
  · exact (hsorted.2.2.1 t).imp ne_of_lt

/-- C4 witness: monotonicity preserved when merging a concrete sorted
delta into a concrete sorted store. -/
theorem C4_merge_preserves_monotonic_witness :
    SortedLogs sampleS ∧ (∀ Δ ∈ [sampleD], SortedLogs Δ) ∧
      SortedLogs ([sampleD].foldl Logs.merge sampleS) :=
  ⟨by decide, by decide,
    (C4_merge_preserves_monotonic sampleS [sampleD] (by decide)
      (by decide)).1⟩

/-- A delta adding index 0 to the M1 measurement sequence. -/
def cxD1 : LogsC :=
  { Logs.empty with
    measurements_index := fun k => match k with
      | .M1 => [(0, Data.M1 ("a"))]
      | _ => [] }

/-- A delta adding index 1 to the M1 measurement sequence: its index
range is disjoint from `cxD1`'s. -/
def cxD2 : LogsC :=
  { Logs.empty with
    measurements_index := fun k => match k with
      | .M1 => [(1, Data.M1 ("b"))]
      | _ => [] }

/-- C5 counterexample: two sorted deltas with disjoint index ranges on
the same key do not commute — merging `cxD1` then `cxD2` keeps both
entries, merging `cxD2` then `cxD1` drops `cxD1`'s older entry. -/
theorem C5_counterexample :
    SortedLogs cxD1 ∧ SortedLogs cxD2 ∧
      (∀ k, ∀ p ∈ cxD1.measurements_index k,
        ∀ q ∈ cxD2.measurements_index k, p.1 ≠ q.1) ∧
      (Logs.empty.merge cxD1).merge cxD2 ≠
        (Logs.empty.merge cxD2).merge cxD1 := by
  refine ⟨by decide, by decide, by decide, fun h => ?_⟩
  exact absurd (congrArg (fun L => L.measurements_index Metrics.M1) h)
    (by decide)

/-- Deltas touching disjoint parts of the store: for every key at most
one of them has entries, and their duration maps have disjoint
domains. -/
def TouchDisjoint {K T D : Type} (D1 D2 : Logs K T D) : Prop :=
  (∀ k, D1.measurements_index k = [] ∨ D2.measurements_index k = []) ∧
  (∀ k, D1.measurements_timestamp k = [] ∨ D2.measurements_timestamp k = []) ∧
  (∀ t, D1.evaluations_index t = [] ∨ D2.evaluations_index t = []) ∧
  (∀ t, D1.evaluations_timestamp t = [] ∨ D2.evaluations_timestamp t = []) ∧
  (∀ i, D1.duration_index i = none ∨ D2.duration_index i = none)

/-- The per-key merge commutes through a key one of whose deltas is
empty. -/
theorem mergeSeq_commute_of_nil {α β : Type} [LinearOrder α]
    (s d1 d2 : List (α × β)) (h : d1 = [] ∨ d2 = []) :
    mergeSeq (mergeSeq s d1) d2 = mergeSeq (mergeSeq s d2) d1 := by
  rcases h with h | h <;> subst h <;>
    rw [mergeSeq_nil_right, mergeSeq_nil_right]

/-- C5 amended: merge order is irrelevant when the two sorted deltas
touch different keys (and write different cycle durations). -/
theorem C5_merge_disjoint_commute {K T D : Type} (S D1 D2 : Logs K T D)
    (h1 : SortedLogs D1) (h2 : SortedLogs D2) (hd : TouchDisjoint D1 D2) :
    (S.merge D1).merge D2 = (S.merge D2).merge D1 := by
  obtain ⟨d1, d2, d3, d4, d5⟩ := hd
  refine Logs.ext ?_ ?_ ?_ ?_ ?_
  · funext k
    exact mergeSeq_commute_of_nil _ _ _ (d1 k)
  · funext k
    exact mergeSeq_commute_of_nil _ _ _ (d2 k)
  · funext t
    exact mergeSeq_commute_of_nil _ _ _ (d3 t)
  · funext t
    exact mergeSeq_commute_of_nil _ _ _ (d4 t)
  · funext i
    simp only [Logs.merge, Logs.mut_merge]
    rcases d5 i with h | h <;> rw [h]

/-- A delta touching only the C8 evaluation sequences. -/
def cxE1 : LogsC where
  measurements_index := fun _ => []
  measurements_timestamp := fun _ => []
  evaluations_index := fun t => match t with
    | .C8 => [(0, true)]
    | _ => []
  evaluations_timestamp := fun t => match t with
    | .C8 => [(10, true)]
    | _ => []
  duration_index := fun _ => none

/-- A delta touching only the C9 evaluation sequences. -/
def cxE2 : LogsC where
  measurements_index := fun _ => []
  measurements_timestamp := fun _ => []
  evaluations_index := fun t => match t with
    | .C9 => [(0, false)]
    | _ => []
  evaluations_timestamp := fun t => match t with
    | .C9 => [(11, false)]
    | _ => []
  duration_index := fun _ => none

/-- C5 witness: the amended commutation applied to concrete deltas on
different keys. -/
theorem C5_merge_disjoint_commute_witness :
    SortedLogs cxE1 ∧ SortedLogs cxE2 ∧ TouchDisjoint cxE1 cxE2 ∧
      (sampleS.merge cxE1).merge cxE2 = (sampleS.merge cxE2).merge cxE1 := by
  have hdisj : TouchDisjoint cxE1 cxE2 :=
    ⟨fun _ => Or.inl rfl, fun _ => Or.inl rfl,
      fun t => by cases t <;> simp [cxE1, cxE2],
      fun t => by cases t <;> simp [cxE1, cxE2],
      fun _ => Or.inl rfl⟩
  exact ⟨by decide, by decide, hdisj,
    C5_merge_disjoint_commute sampleS cxE1 cxE2 (by decide) (by decide) hdisj⟩

/-- C10: the functional (`with_*`, `merge`) and mutating (`insert_*`,
`mut_merge`) log-store operations coincide: cloning and mutating the
clone is the pure update. -/
theorem C10_functional_mutating_coincide {K T D : Type} [DecidableEq K]
    [DecidableEq T] :
    (∀ (S : Logs K T D) (m : Measurement D) (k : K),
      S.with_measurement m k = S.insert_measurement m k) ∧
    (∀ (S : Logs K T D) (e : Evaluation) (t : T),
      S.with_evaluation e t = S.insert_evaluation e t) ∧
    (∀ (S : Logs K T D) (d : Int) (i : Nat),
      S.with_duration d i = S.insert_duration d i) ∧
    (∀ (S Δ : Logs K T D), S.merge Δ = S.mut_merge Δ) :=
  ⟨fun _ _ _ => rfl, fun _ _ _ => rfl, fun _ _ _ => rfl, fun _ _ => rfl⟩

/-- Sample mean, per the spec: sum over count. -/
def sampleMean (xs : List Nat) : ℚ := ((xs.sum : Nat) : ℚ) / (xs.length : ℚ)

/-- Sample variance with denominator n - 1, per the spec. -/
def sampleVariance (xs : List Nat) : ℚ :=
  (xs.map (fun x => ((x : ℚ) - sampleMean xs) ^ 2)).sum / ((xs.length : ℚ) - 1)

theorem foldl_add_map_sum {β : Type} (f : β → ℚ) (xs : List β) :
    xs.foldl (fun acc x => acc + f x) 0 = (xs.map f).sum := by
  rw [List.sum_eq_foldl, List.foldl_map]

/-- C6: for cycle index below 4, C5 is `Ok(false)` whatever the
dependency carries; from index 4 on, with an M3-tagged dependency and
five collected samples (whose u64 sum does not wrap), C5 succeeds with
the sample-variance test over the most recent five recorded M3 values
from the log store, true iff the sample standard deviation is below 5.0
(variance below 25, denominator n - 1). -/
theorem C6_c5_semantics :
    (∀ (m3 : MDep) (index : Nat) (ts : Int), index < 4 →
      c5 m3 index ts = Except.ok (⟨false, index, ts⟩,
        m3.2.insert_evaluation ⟨false, index, ts⟩ Tasks.C5)) ∧
    (∀ (m3 : MDep) (index : Nat) (ts : Int) (v : Nat), 4 ≤ index →
      m3.1.data = Data.M3 v → (c5samples m3.2).length = 5 →
      (c5samples m3.2).sum < U64 →
      c5 m3 index ts = Except.ok
        (⟨decide (sampleVariance (c5samples m3.2) < 25), index, ts⟩,
          m3.2.insert_evaluation
            ⟨decide (sampleVariance (c5samples m3.2) < 25), index, ts⟩
            Tasks.C5)) := by
  constructor
  · intro m3 index ts h
    obtain ⟨meas, logs⟩ := m3
    simp only [c5, if_pos h]
    rfl
  · intro m3 index ts v h4 hdata hlen hsum
    obtain ⟨meas, logs⟩ := m3
    have hnlt : ¬ index < 4 := not_lt.mpr h4
    simp only at hdata
    have hmean : (((c5samples logs).foldl (· + ·) 0 % U64 : Nat) : ℚ) /
        ((c5samples logs).length : ℚ) = sampleMean (c5samples logs) := by
      rw [← List.sum_eq_foldl, Nat.mod_eq_of_lt hsum, sampleMean]
    have hvar : ((c5samples logs).foldl
          (fun acc new => acc + ((new : ℚ) - sampleMean (c5samples logs)) ^ 2)
          0) / (((c5samples logs).length - 1 : Nat) : ℚ) =
        sampleVariance (c5samples logs) := by
      rw [foldl_add_map_sum, sampleVariance, hlen]
      norm_num
    simp only [c5, hnlt, if_false, hdata, hmean, hvar]
    rfl

/-- Sorted five-cycle M3 history used to exercise C5 at index 4. -/
def c6logs : LogsC where
  measurements_index := fun k => match k with
    | .M3 => [(0, Data.M3 100), (1, Data.M3 101), (2, Data.M3 99),
        (3, Data.M3 102), (4, Data.M3 98)]
    | _ => []
  measurements_timestamp := fun k => match k with
    | .M3 => [(10, Data.M3 100), (20, Data.M3 101), (30, Data.M3 99),
        (40, Data.M3 102), (50, Data.M3 98)]
    | _ => []
  evaluations_index := fun _ => []
  evaluations_timestamp := fun _ => []
  duration_index := fun _ => none

/-- C6 witness: at index 4 with history 100, 101, 99, 102, 98 the
variance is 2.5 < 25, so C5 evaluates to true. -/
theorem C6_c5_semantics_witness :
    (4 : Nat) ≤ 4 ∧ (c5samples c6logs).length = 5 ∧
      (c5samples c6logs).sum < U64 ∧
      c5 (⟨Data.M3 98, 4, 50⟩, c6logs) 4 50 = Except.ok (⟨true, 4, 50⟩,
        c6logs.insert_evaluation ⟨true, 4, 50⟩ Tasks.C5) := by
  refine ⟨le_refl 4, by decide, by decide, ?_⟩
  have h := C6_c5_semantics.2 (⟨Data.M3 98, 4, 50⟩, c6logs) 4 50 98
    (le_refl 4) rfl (by decide) (by decide)
  have hval : decide (sampleVariance (c5samples c6logs) < 25) = true := by
    have hs : c5samples c6logs = [98, 102, 99, 101, 100] := by rfl
    rw [decide_eq_true_eq, hs]
    norm_num [sampleVariance, sampleMean]
  rw [h, hval]

/-- C7 counterexample: with capacity 7 and usage 5 the code accepts
(5 ≥ 560/100 = 5 after truncation) although the exact 80% threshold is
28/5 = 5.6 > 5, so "usage ≥ exactly 4/5 of capacity" is not what c4
computes. -/
theorem C7_counterexample :
    c4 (⟨Data.M2 7, 0, 0⟩, Logs.empty) (⟨Data.M3 5, 0, 0⟩, Logs.empty) 0 0 =
      Except.ok (⟨true, 0, 0⟩,
        ((Logs.empty : LogsC).mut_merge Logs.empty).insert_evaluation
          ⟨true, 0, 0⟩ Tasks.C4) ∧
    ¬ ((4 : ℚ) / 5 * 7 ≤ 5) := by
  constructor
  · rfl
  · norm_num

/-- C7 amended: for every capacity and usage (no u64 wrap of
`capacity * 80`), c4 is true iff `usage ≥ capacity * 80 / 100` with
truncating integer division, equivalently `usage ≥ ⌊capacity * 4 / 5⌋` —
not the exact rational four-fifths comparison. -/
theorem C7_c4_semantics (capacity usage : Nat) (h : capacity * 80 < U64)
    (logs2 logs3 : LogsC) (index idx2 idx3 : Nat) (ts t2 t3 : Int) :
    c4 (⟨Data.M2 capacity, idx2, t2⟩, logs2)
        (⟨Data.M3 usage, idx3, t3⟩, logs3) index ts =
      Except.ok (⟨decide (capacity * 4 / 5 ≤ usage), index, ts⟩,
        (logs2.mut_merge logs3).insert_evaluation
          ⟨decide (capacity * 4 / 5 ≤ usage), index, ts⟩ Tasks.C4) := by
  have hmod : capacity * 80 % U64 = capacity * 80 := Nat.mod_eq_of_lt h
  have hdiv : capacity * 80 / 100 = capacity * 4 / 5 := by
    have h1 : capacity * 80 = capacity * 4 * 20 := by ring
    have h2 : (100 : Nat) = 5 * 20 := by norm_num
    rw [h1, h2, Nat.mul_div_mul_right]
    norm_num
  by_cases hc : capacity * 4 / 5 ≤ usage
  · simp only [c4, hmod, hdiv, if_pos hc, hc, decide_eq_true_eq]
    simp [hc]
    rfl
  · simp only [c4, hmod, hdiv, if_neg hc]
    simp [hc]
    rfl

/-- C7 witness: capacity 7, usage 6 — the truncated threshold is 5, so
c4 is true. -/
theorem C7_c4_semantics_witness :
    7 * 80 < U64 ∧
      c4 (⟨Data.M2 7, 1, 8⟩, Logs.empty) (⟨Data.M3 6, 1, 8⟩, Logs.empty)
          1 9 =
        Except.ok (⟨decide (7 * 4 / 5 ≤ 6), 1, 9⟩,
          ((Logs.empty : LogsC).mut_merge Logs.empty).insert_evaluation
            ⟨decide (7 * 4 / 5 ≤ 6), 1, 9⟩ Tasks.C4) :=
  ⟨by decide,
    C7_c4_semantics 7 6 (by decide) Logs.empty Logs.empty 1 1 1 9 8 8⟩

/-- The boolean c10/c12 compute over a face map: drop NaN averages,
then require every remaining average strictly between 3.0 and 12.0. -/
def cAvgAll (m : List (Nat × PacketStatistics)) : Bool :=
  ((m.map Prod.snd).filter (fun s => !s.avg.is_nan)).all
    (fun s => F.blt (F.val 3) s.avg && F.blt s.avg (F.val 12))

theorem cAvgAll_iff (m : List (Nat × PacketStatistics)) :
    cAvgAll m = true ↔
      ∀ p ∈ m, ∀ q : ℚ, p.2.avg = F.val q → 3 < q ∧ q < 12 := by
  rw [cAvgAll, List.all_eq_true]
  constructor
  · intro h p hp q hq
    have hmem : p.2 ∈ (m.map Prod.snd).filter (fun s => !s.avg.is_nan) := by
      rw [List.mem_filter]
      exact ⟨List.mem_map_of_mem _ hp, by rw [hq]; rfl⟩
    have hb := h p.2 hmem
    rw [hq] at hb
    simpa [F.blt] using hb
  · intro h s hs
    rw [List.mem_filter] at hs
    obtain ⟨hs1, hs2⟩ := hs
    rw [List.mem_map] at hs1
    obtain ⟨p, hp, rfl⟩ := hs1
    cases havg : p.2.avg with
    | nan => rw [havg] at hs2; simp [F.is_nan] at hs2
    | val q =>
        have hq := h p hp q havg
        simpa [F.blt] using hq

theorem c10_result (m : List (Nat × PacketStatistics))
    (meas : Measurement Data) (logs : LogsC) (index : Nat) (ts : Int)
    (hdata : meas.data = Data.M9 m) :
    c10 (meas, logs) index ts = Except.ok (⟨cAvgAll m, index, ts⟩,
      logs.insert_evaluation ⟨cAvgAll m, index, ts⟩ Tasks.C10) := by
  simp only [c10, hdata]
  rfl

theorem c12_result (m : List (Nat × PacketStatistics))
    (meas : Measurement Data) (logs : LogsC) (index : Nat) (ts : Int)
    (hdata : meas.data = Data.M10 m) :
    c12 (meas, logs) index ts = Except.ok (⟨cAvgAll m, index, ts⟩,
      logs.insert_evaluation ⟨cAvgAll m, index, ts⟩ Tasks.C12) := by
  simp only [c12, hdata]
  rfl

/-- C8: c10 (over M9) and c12 (over M10) ignore NaN-average faces and
are true iff every non-NaN average lies strictly between 3.0 and 12.0;
in particular a map all of whose faces have NaN averages (or an empty
map) yields true. -/
theorem C8_c10_c12_nan :
    (∀ (m : List (Nat × PacketStatistics)) (meas : Measurement Data)
        (logs : LogsC) (index : Nat) (ts : Int), meas.data = Data.M9 m →
      (c10 (meas, logs) index ts = Except.ok (⟨true, index, ts⟩,
          logs.insert_evaluation ⟨true, index, ts⟩ Tasks.C10) ↔
        ∀ p ∈ m, ∀ q : ℚ, p.2.avg = F.val q → 3 < q ∧ q < 12)) ∧
    (∀ (m : List (Nat × PacketStatistics)) (meas : Measurement Data)
        (logs : LogsC) (index : Nat) (ts : Int), meas.data = Data.M9 m →
      (∀ p ∈ m, p.2.avg = F.nan) →
      c10 (meas, logs) index ts = Except.ok (⟨true, index, ts⟩,
        logs.insert_evaluation ⟨true, index, ts⟩ Tasks.C10)) ∧
    (∀ (m : List (Nat × PacketStatistics)) (meas : Measurement Data)
        (logs : LogsC) (index : Nat) (ts : Int), meas.data = Data.M10 m →
      (c12 (meas, logs) index ts = Except.ok (⟨true, index, ts⟩,
          logs.insert_evaluation ⟨true, index, ts⟩ Tasks.C12) ↔
        ∀ p ∈ m, ∀ q : ℚ, p.2.avg = F.val q → 3 < q ∧ q < 12)) ∧
    (∀ (m : List (Nat × PacketStatistics)) (meas : Measurement Data)
        (logs : LogsC) (index : Nat) (ts : Int), meas.data = Data.M10 m →
      (∀ p ∈ m, p.2.avg = F.nan) →
      c12 (meas, logs) index ts = Except.ok (⟨true, index, ts⟩,
        logs.insert_evaluation ⟨true, index, ts⟩ Tasks.C12)) := by
  have hval : ∀ (m : List (Nat × PacketStatistics)),
      (∀ p ∈ m, p.2.avg = F.nan) →
      ∀ p ∈ m, ∀ q : ℚ, p.2.avg = F.val q → 3 < q ∧ q < 12 := by
    intro m hnan p hp q hq
    rw [hnan p hp] at hq
    exact absurd hq (by simp)
  refine ⟨fun m meas logs index ts hdata => ?_,
    fun m meas logs index ts hdata hnan => ?_,
    fun m meas logs index ts hdata => ?_,
    fun m meas logs index ts hdata hnan => ?_⟩
  · rw [c10_result m meas logs index ts hdata]
    constructor
    · intro h
      refine (cAvgAll_iff m).mp ?_
      by_cases hb : cAvgAll m = true
      · exact hb
      · exfalso
        have hcong := congrArg (fun r =>
          match r with
          | Except.ok x => x.1.value
          | Except.error _ => true) h
        simp only at hcong
        exact hb hcong
    · intro h
      rw [(cAvgAll_iff m).mpr h]
  · rw [c10_result m meas logs index ts hdata,
      (cAvgAll_iff m).mpr (hval m hnan)]
  · rw [c12_result m meas logs index ts hdata]
    constructor
    · intro h
      refine (cAvgAll_iff m).mp ?_
      by_cases hb : cAvgAll m = true
      · exact hb
      · exfalso
        have hcong := congrArg (fun r =>
          match r with
          | Except.ok x => x.1.value
          | Except.error _ => true) h
        simp only at hcong
        exact hb hcong
    · intro h
      rw [(cAvgAll_iff m).mpr h]
  · rw [c12_result m meas logs index ts hdata,
      (cAvgAll_iff m).mpr (hval m hnan)]

/-- C8 witness: a face map whose only face has a NaN average makes c10
and c12 true. -/
theorem C8_c10_c12_nan_witness :
    c10 (⟨Data.M9 [(1, ⟨0, 0, F.nan, F.nan⟩)], 0, 0⟩, Logs.empty) 0 0 =
        Except.ok (⟨true, 0, 0⟩,
          (Logs.empty : LogsC).insert_evaluation ⟨true, 0, 0⟩ Tasks.C10) ∧
      c12 (⟨Data.M10 [(1, ⟨0, 0, F.nan, F.nan⟩)], 0, 0⟩, Logs.empty) 0 0 =
        Except.ok (⟨true, 0, 0⟩,
          (Logs.empty : LogsC).insert_evaluation ⟨true, 0, 0⟩ Tasks.C12) :=
  ⟨C8_c10_c12_nan.2.1 [(1, ⟨0, 0, F.nan, F.nan⟩)] ⟨Data.M9 _, 0, 0⟩
      Logs.empty 0 0 rfl (by decide),
    C8_c10_c12_nan.2.2.2 [(1, ⟨0, 0, F.nan, F.nan⟩)] ⟨Data.M10 _, 0, 0⟩
      Logs.empty 0 0 rfl (by decide)⟩

/-- C9 counterexample: c5 handed an M2-tagged dependency at cycle index
0 returns `Ok(false)`, not a contract error — the `index < 4` guard
matches before the tag is inspected. -/
theorem C9_counterexample :
    c5 (⟨Data.M2 7, 0, 0⟩, Logs.empty) 0 0 =
      Except.ok (⟨false, 0, 0⟩,
        (Logs.empty : LogsC).insert_evaluation ⟨false, 0, 0⟩ Tasks.C5) :=
  rfl

/-- C9 amended: every constraint except C5 returns a contract error on a
wrongly-tagged dependency; C5 does so only from cycle index 4 on — for
index below 4 it returns false for any dependency tag. -/
theorem C9_contract_errors :
    (∀ (d : Data) (mi : Nat) (mt ts : Int) (logs : LogsC) (index : Nat),
      (∀ s, d ≠ Data.M1 s) →
      c1 (⟨d, mi, mt⟩, logs) index ts = Except.error wrongDepTask) ∧
    (∀ (d2 d13 : Data) (mi : Nat) (mt ts : Int) (l2 l13 : LogsC)
        (index : Nat),
      (∀ a b, ¬(d2 = Data.M2 a ∧ d13 = Data.M13 b)) →
      c2 (⟨d2, mi, mt⟩, l2) (⟨d13, mi, mt⟩, l13) index ts =
        Except.error wrongDepTasks) ∧
    (∀ (d : Data) (mi : Nat) (mt ts : Int) (logs : LogsC) (index : Nat),
      (∀ a, d ≠ Data.M2 a) →
      c3 (⟨d, mi, mt⟩, logs) index ts = Except.error wrongDepTask) ∧
    (∀ (d2 d3 : Data) (mi : Nat) (mt ts : Int) (l2 l3 : LogsC)
        (index : Nat),
      (∀ a b, ¬(d2 = Data.M2 a ∧ d3 = Data.M3 b)) →
      c4 (⟨d2, mi, mt⟩, l2) (⟨d3, mi, mt⟩, l3) index ts =
        Except.error wrongDepTasks) ∧
    (∀ (d : Data) (mi : Nat) (mt ts : Int) (logs : LogsC) (index : Nat),
      index < 4 →
      c5 (⟨d, mi, mt⟩, logs) index ts = Except.ok (⟨false, index, ts⟩,
        logs.insert_evaluation ⟨false, index, ts⟩ Tasks.C5)) ∧
    (∀ (d : Data) (mi : Nat) (mt ts : Int) (logs : LogsC) (index : Nat),
      4 ≤ index → (∀ a, d ≠ Data.M3 a) →
      c5 (⟨d, mi, mt⟩, logs) index ts = Except.error wrongDepTasks) ∧
    (∀ (d : Data) (mi : Nat) (mt ts : Int) (logs : LogsC) (index : Nat),
      (∀ a, d ≠ Data.M4 a) →
      c6 (⟨d, mi, mt⟩, logs) index ts = Except.error wrongDepTask) ∧
    (∀ (d : Data) (mi : Nat) (mt ts : Int) (logs : LogsC) (index : Nat),
      (∀ a, d ≠ Data.M4 a) →
      c7 (⟨d, mi, mt⟩, logs) index ts = Except.error wrongDepTask) ∧
    (∀ (d : Data) (mi : Nat) (mt ts : Int) (logs : LogsC) (index : Nat),
      (∀ a, d ≠ Data.M6 a) →
      c8 (⟨d, mi, mt⟩, logs) index ts = Except.error wrongDepTask) ∧
    (∀ (d : Data) (mi : Nat) (mt ts : Int) (logs : LogsC) (index : Nat),
      (∀ a, d ≠ Data.M7 a) →
      c9 (⟨d, mi, mt⟩, logs) index ts = Except.error wrongDepTask) ∧
    (∀ (d : Data) (mi : Nat) (mt ts : Int) (logs : LogsC) (index : Nat),
      (∀ a, d ≠ Data.M9 a) →
      c10 (⟨d, mi, mt⟩, logs) index ts = Except.error wrongDepTask) ∧
    (∀ (d : Data) (mi : Nat) (mt ts : Int) (logs : LogsC) (index : Nat),
      (∀ a, d ≠ Data.M8 a) →
      c11 (⟨d, mi, mt⟩, logs) index ts = Except.error wrongDepTask) ∧
    (∀ (d : Data) (mi : Nat) (mt ts : Int) (logs : LogsC) (index : Nat),
      (∀ a, d ≠ Data.M10 a) →
      c12 (⟨d, mi, mt⟩, logs) index ts = Except.error wrongDepTask) ∧
    (∀ (d : Data) (mi : Nat) (mt now ts : Int) (logs : LogsC)
        (index : Nat),
      (∀ a, d ≠ Data.M11 a) →
      c13 (⟨d, mi, mt⟩, logs) index now ts = Except.error wrongDepTask) ∧
    (∀ (d : Data) (mi : Nat) (mt ts : Int) (logs : LogsC) (index : Nat),
      (∀ a, d ≠ Data.M12 a) →
      c14 (⟨d, mi, mt⟩, logs) index ts = Except.error wrongDepTask) ∧
    (∀ (d : Data) (mi : Nat) (mt ts : Int) (logs : LogsC) (index : Nat),
      (∀ a b, d ≠ Data.M14 a b) →
      c15 (⟨d, mi, mt⟩, logs) index ts = Except.error wrongDepTask) := by
  refine ⟨?_, ?_, ?_, ?_, ?_, ?_, ?_, ?_, ?_, ?_, ?_, ?_, ?_, ?_, ?_, ?_⟩
  · intro d mi mt ts logs index h
    cases d <;> first | rfl | exact absurd rfl (h _)
  · intro d2 d13 mi mt ts l2 l13 index h
    cases d2 <;> cases d13 <;>
      first | rfl | exact absurd ⟨rfl, rfl⟩ (h _ _)
  · intro d mi mt ts logs index h
    cases d <;> first | rfl | exact absurd rfl (h _)
  · intro d2 d3 mi mt ts l2 l3 index h
    cases d2 <;> cases d3 <;>
      first | rfl | exact absurd ⟨rfl, rfl⟩ (h _ _)
  · intro d mi mt ts logs index h
    simp only [c5, if_pos h]
    rfl
  · intro d mi mt ts logs index h4 h
    have hnlt : ¬ index < 4 := not_lt.mpr h4
    cases d <;>
      first
        | exact absurd rfl (h _)
        | (simp only [c5, if_neg hnlt]; rfl)
  · intro d mi mt ts logs index h
    cases d <;> first | rfl | exact absurd rfl (h _)
  · intro d mi mt ts logs index h
    cases d <;> first | rfl | exact absurd rfl (h _)
  · intro d mi mt ts logs index h
    cases d <;> first | rfl | exact absurd rfl (h _)
  · intro d mi mt ts logs index h
    cases d <;> first | rfl | exact absurd rfl (h _)
  · intro d mi mt ts logs index h
    cases d <;> first | rfl | exact absurd rfl (h _)
  · intro d mi mt ts logs index h
    cases d <;> first | rfl | exact absurd rfl (h _)
  · intro d mi mt ts logs index h
    cases d <;> first | rfl | exact absurd rfl (h _)
  · intro d mi mt now ts logs index h
    cases d <;> first | rfl | exact absurd rfl (h _)
  · intro d mi mt ts logs index h
    cases d <;> first | rfl | exact absurd rfl (h _)
  · intro d mi mt ts logs index h
    cases d <;> first | rfl | exact absurd rfl (h _ _)

/-- C9 witness: c1 handed an M2-tagged dependency errors out. -/
theorem C9_contract_errors_witness :
    c1 (⟨Data.M2 0, 0, 0⟩, Logs.empty) 0 0 = Except.error wrongDepTask :=
  C9_contract_errors.1 (Data.M2 0) 0 0 0 Logs.empty 0
    (fun _ h => Data.noConfusion h)

/-- When every recorded entry is older than the trailing window, the
backwards scan stops immediately and `all` over the empty scan is
true. -/
theorem windowAll_vacuous (now : Int) (entries : List (Int × Bool))
    (h : ∀ p ∈ entries, p.1 < now + windowDuration) :
    windowAll now entries = true := by
  rw [windowAll]
  have hnil : entries.reverse.takeWhile
      (fun p => decide (now + windowDuration ≤ p.1)) = [] := by
    cases hrev : entries.reverse with
    | nil => rfl
    | cons a tl =>
        rw [List.takeWhile_cons]
        have ha : a ∈ entries := by
          rw [← List.mem_reverse, hrev]
          exact List.mem_cons_self a tl
        simp [not_le.mpr (h a ha)]
  rw [hnil]
  rfl

/-- A branch log whose only C8 evaluation is far older than the
two-minute window. -/
def c2logs : LogsC where
  measurements_index := fun _ => []
  measurements_timestamp := fun _ => []
  evaluations_index := fun t => match t with
    | .C8 => [(0, false)]
    | _ => []
  evaluations_timestamp := fun t => match t with
    | .C8 => [(-500, false)]
    | _ => []
  duration_index := fun _ => none

/-- C2 counterexample: at evaluation time 0 the sole C8 evaluation
(timestamp -500) is outside the trailing two-minute window — zero
in-window evaluations — yet r3 evaluates to true, not false: the empty
backwards scan is vacuously accepted. -/
theorem C2_counterexample :
    (c2logs.evaluations_timestamp Tasks.C8).all
        (fun p => decide (p.1 < 0 + windowDuration)) = true ∧
      (r3 (⟨false, 0, -500⟩, c2logs) 1 0 1).1.value = true := by
  constructor
  · decide
  · decide

/-- C2 amended: in every windowed rule (R2-R8) and property (P1-P3), a
dependency with zero evaluations inside the trailing two-minute window
contributes a vacuously true conjunct; when every dependency has zero
in-window evaluations the rule or property evaluates to true (vacuous
truth is accepted, not rejected). -/
theorem C2_window_vacuous_true :
    (∀ (d4 d5 d6 d7 : EDep) (index : Nat) (now ts : Int),
      (∀ t ∈ [Tasks.C4, Tasks.C5, Tasks.C6, Tasks.C7],
        ∀ p ∈ (((d4.2.mut_merge d5.2).mut_merge d6.2).mut_merge
            d7.2).evaluations_timestamp t, p.1 < now + windowDuration) →
      (r2 d4 d5 d6 d7 index now ts).1.value = true) ∧
    (∀ (d8 : EDep) (index : Nat) (now ts : Int),
      (∀ p ∈ d8.2.evaluations_timestamp Tasks.C8,
        p.1 < now + windowDuration) →
      (r3 d8 index now ts).1.value = true) ∧
    (∀ (d9 d10 : EDep) (index : Nat) (now ts : Int),
      (∀ t ∈ [Tasks.C9, Tasks.C10],
        ∀ p ∈ (d9.2.mut_merge d10.2).evaluations_timestamp t,
          p.1 < now + windowDuration) →
      (r4 d9 d10 index now ts).1.value = true) ∧
    (∀ (d11 d12 : EDep) (index : Nat) (now ts : Int),
      (∀ t ∈ [Tasks.C11, Tasks.C12],
        ∀ p ∈ (d11.2.mut_merge d12.2).evaluations_timestamp t,
          p.1 < now + windowDuration) →
      (r5 d11 d12 index now ts).1.value = true) ∧
    (∀ (d13 : EDep) (index : Nat) (now ts : Int),
      (∀ p ∈ d13.2.evaluations_timestamp Tasks.C13,
        p.1 < now + windowDuration) →
      (r6 d13 index now ts).1.value = true) ∧
    (∀ (d14 : EDep) (index : Nat) (now ts : Int),
      (∀ p ∈ d14.2.evaluations_timestamp Tasks.C14,
        p.1 < now + windowDuration) →
      (r7 d14 index now ts).1.value = true) ∧
    (∀ (d15 : EDep) (index : Nat) (now ts : Int),
      (∀ p ∈ d15.2.evaluations_timestamp Tasks.C15,
        p.1 < now + windowDuration) →
      (r8 d15 index now ts).1.value = true) ∧
    (∀ (e1 e2 e3 e4 e5 : EDep) (index : Nat) (now ts : Int),
      (∀ t ∈ [Tasks.R1, Tasks.R2, Tasks.R3, Tasks.R4, Tasks.R5],
        ∀ p ∈ ((((e1.2.mut_merge e2.2).mut_merge e3.2).mut_merge
            e4.2).mut_merge e5.2).evaluations_timestamp t,
          p.1 < now + windowDuration) →
      (p1 e1 e2 e3 e4 e5 index now ts).1.value = true) ∧
    (∀ (e6 e7 : EDep) (index : Nat) (now ts : Int),
      (∀ t ∈ [Tasks.R6, Tasks.R7],
        ∀ p ∈ (e6.2.mut_merge e7.2).evaluations_timestamp t,
          p.1 < now + windowDuration) →
      (p2 e6 e7 index now ts).1.value = true) ∧
    (∀ (e6 e7 e8 : EDep) (index : Nat) (now ts : Int),
      (∀ t ∈ [Tasks.R6, Tasks.R7, Tasks.R8],
        ∀ p ∈ ((e6.2.mut_merge e7.2).mut_merge
            e8.2).evaluations_timestamp t, p.1 < now + windowDuration) →
      (p3 e6 e7 e8 index now ts).1.value = true) := by
  refine ⟨?_, ?_, ?_, ?_, ?_, ?_, ?_, ?_, ?_, ?_⟩
  · intro d4 d5 d6 d7 index now ts h
    exact List.all_eq_true.mpr
      (fun t ht => windowAll_vacuous now _ (h t ht))
  · intro d8 index now ts h
    exact windowAll_vacuous now _ h
  · intro d9 d10 index now ts h
    exact List.all_eq_true.mpr
      (fun t ht => windowAll_vacuous now _ (h t ht))
  · intro d11 d12 index now ts h
    exact List.all_eq_true.mpr
      (fun t ht => windowAll_vacuous now _ (h t ht))
  · intro d13 index now ts h
    exact windowAll_vacuous now _ h
  · intro d14 index now ts h
    exact windowAll_vacuous now _ h
  · intro d15 index now ts h
    exact windowAll_vacuous now _ h
  · intro e1 e2 e3 e4 e5 index now ts h
    exact List.all_eq_true.mpr
      (fun t ht => windowAll_vacuous now _ (h t ht))
  · intro e6 e7 index now ts h
    exact List.all_eq_true.mpr
      (fun t ht => windowAll_vacuous now _ (h t ht))
  · intro e6 e7 e8 index now ts h
    exact List.all_eq_true.mpr
      (fun t ht => windowAll_vacuous now _ (h t ht))

/-- C2 witness: the amended vacuous-truth behaviour at a concrete log
whose only C8 evaluation is outside the window. -/
theorem C2_window_vacuous_true_witness :
    (∀ p ∈ c2logs.evaluations_timestamp Tasks.C8,
        p.1 < 0 + windowDuration) ∧
      (r3 (⟨false, 0, -500⟩, c2logs) 1 0 1).1.value = true :=
  ⟨by decide, C2_window_vacuous_true.2.1 (⟨false, 0, -500⟩, c2logs) 1 0 1
    (by decide)⟩
